import Mathlib

/-!
# D3pixelbot: live-session frame decoder and recording writer

A shallow embedding of `pixelcanvas.io.go` (websocket read loop, `authenticateMe`)
and `canvasdiskwriter.go` (label sanitizer, event handlers, `Close`).

Conventions
* a byte is a `Nat` below 256, a byte slice is a `List Nat`;
* Go's `int` is an `Int`; fixed-width conversions are written out with explicit
  reductions modulo `2^w`;
* every call of `time.Now().UnixNano()` is an explicit argument `now : Int`;
* stateful methods take the receiver and return the new receiver together with the
  returned `error` (`none` is Go's `nil`).
-/

namespace D3pixelbot

/-! ## Fixed-width integer conversions -/

/-- Go conversion `uint8(v)` of a non-negative value. -/
def uint8 (v : Nat) : Nat := v % 256

/-- Go conversion `uint16(v)` of a non-negative value. -/
def uint16 (v : Nat) : Nat := v % 65536

/-- Go conversion `int16(v)` of a `uint16` value: reinterpret the 16 bits as two's complement. -/
def int16 (v : Nat) : Int :=
  if v % 65536 < 32768 then ((v % 65536 : Nat) : Int) else ((v % 65536 : Nat) : Int) - 65536

/-- Go conversion `uint32(v)` of an integer: the low 32 bits. -/
def uint32 (v : Int) : Nat := (v % 4294967296).toNat

/-- Go conversion `int32(v)` of an `int`: the low 32 bits read as two's complement. -/
def int32 (v : Int) : Int :=
  if v % 4294967296 < 2147483648 then v % 4294967296 else v % 4294967296 - 4294967296

/-- Go conversion `uint64(v)` of an `int64`: the 64 bits read as unsigned. -/
def uint64 (v : Int) : Nat := (v % 18446744073709551616).toNat

/-! ## `encoding/binary` byte orders -/

/-- Function `binary.BigEndian.Uint16(b)`: `uint16(b[1]) | uint16(b[0])<<8`. -/
def BigEndian.Uint16 (b : List Nat) : Nat :=
  uint16 (b.getD 1 0) ||| uint16 (uint16 (b.getD 0 0) <<< 8)

/-- Function `binary.LittleEndian.PutUint32`: `byte(v), byte(v>>8), byte(v>>16), byte(v>>24)`. -/
def LittleEndian.PutUint32 (v : Nat) : List Nat :=
  [uint8 v, uint8 (v >>> 8), uint8 (v >>> 16), uint8 (v >>> 24)]

/-- Function `binary.LittleEndian.PutUint64`: the eight bytes `byte(v >> (8*i))`, `i = 0..7`. -/
def LittleEndian.PutUint64 (v : Nat) : List Nat :=
  [uint8 v, uint8 (v >>> 8), uint8 (v >>> 16), uint8 (v >>> 24),
   uint8 (v >>> 32), uint8 (v >>> 40), uint8 (v >>> 48), uint8 (v >>> 56)]

/-! ## Websocket read loop (`newPixelcanvasio`) -/

/-- What the read loop hands to `log.Printf`. -/
inductive LogEntry where
  /-- Entry "Pixelchange: color %v @ chunk %v, %v with offset %v, %v". -/
  | pixelchange (colorIndex : Nat) (cx cy : Int) (ox oy : Nat)
  /-- Entry "Unknown websocket opcode: %v". -/
  | unknownOpcode (opcode : Nat)
  /-- Entry "Websocket connection error: %v". -/
  | connectionError
  deriving DecidableEq, Repr

/-- Body of the read loop for one successfully read `message`
(`pixelcanvas.io.go`, lines 164-183): the log entry it produces, if any. The conversion
`uint8(message[0])` of a byte changes nothing. -/
def handleMessage (message : List Nat) : Option LogEntry :=
  if message.length ≥ 1 then
    let opcode := message.getD 0 0
    if opcode = 0xC1 then
      if message.length = 7 then
        let cx := int16 (BigEndian.Uint16 (message.drop 1))
        let cy := int16 (BigEndian.Uint16 (message.drop 3))
        let mixed := BigEndian.Uint16 (message.drop 5)
        let colorIndex := mixed &&& 0x0F
        let ox := (mixed >>> 4) &&& 0x3F
        let oy := (mixed >>> 10) &&& 0x3F
        some (.pixelchange colorIndex cx cy ox oy)
      else none
    else some (.unknownOpcode opcode)
  else none

/-- One result of `c.ReadMessage()`. -/
inductive ReadResult where
  | message (data : List Nat)
  | err
  deriving DecidableEq, Repr

/-- Outcome of running the read loop over the results `ReadMessage` has delivered so far. -/
structure LoopRun where
  /-- The log entries, in order. -/
  log : List LogEntry
  /-- Number of `ReadMessage` calls that have returned. -/
  reads : Nat
  /-- Whether the loop has executed `break`. -/
  exited : Bool
  deriving DecidableEq, Repr

/-- The `for { ... }` read loop (`pixelcanvas.io.go`, lines 158-184) run over a finite
sequence of `ReadMessage` results; results after the first error are never read. -/
def readLoop : List ReadResult → LoopRun
  | [] => { log := [], reads := 0, exited := false }
  | .err :: _ => { log := [.connectionError], reads := 1, exited := true }
  | .message m :: rest =>
    let r := readLoop rest
    { log := (handleMessage m).toList ++ r.log, reads := r.reads + 1, exited := r.exited }

/-- The pixel updates among the log entries: `(colorIndex, cx, cy, ox, oy)`. -/
def pixelUpdates : List LogEntry → List (Nat × Int × Int × Nat × Nat)
  | [] => []
  | .pixelchange c cx cy ox oy :: l => (c, cx, cy, ox, oy) :: pixelUpdates l
  | _ :: l => pixelUpdates l

/-- A frame the wire protocol recognises: exactly 7 bytes, the first being `0xC1`. -/
def isPixelFrame (m : List Nat) : Prop := m.length = 7 ∧ m.head? = some 0xC1

instance (m : List Nat) : Decidable (isPixelFrame m) := by
  unfold isPixelFrame; infer_instance

/-! ## Label sanitizer (`newCanvasDiskWriter`, lines 53-54) -/

/-- The characters listed in the bracket expression of the regular expression
`[^a-zA-Z0-9\-\.]+`, i.e. the characters the negated class does NOT match. -/
def inClass (c : Char) : Bool :=
  ('a' ≤ c && c ≤ 'z') || ('A' ≤ c && c ≤ 'Z') || ('0' ≤ c && c ≤ '9') || c == '-' || c == '.'

/-- Method `re.ReplaceAllString(s, "_")` for `re = [^a-zA-Z0-9\-\.]+`, on the runes of `s`.
The scan goes left to right; a match starts at the first rune outside the class and, the
`+` being greedy, extends over the whole run of such runes; each match is replaced by one
`"_"`, everything between matches is copied. `inMatch` says whether the previous rune
belongs to a match that has already been replaced. -/
def replaceAllRuns (inMatch : Bool) : List Char → List Char
  | [] => []
  | c :: cs =>
    if inClass c then c :: replaceAllRuns false cs
    else if inMatch then replaceAllRuns true cs
    else '_' :: replaceAllRuns true cs

/-- The two statements `re := regexp.MustCompile("[^a-zA-Z0-9\\-\\.]+")` and
`shortName = re.ReplaceAllString(shortName, "_")`. The label is taken as its sequence of
runes; a byte that is not valid UTF-8 is read by the matcher as the rune U+FFFD, which
is outside the class. -/
def sanitize (shortName : String) : String := ⟨replaceAllRuns false shortName.data⟩

/-- A path separator of the host (`/`, and `\` on Windows). -/
def isPathSeparator (c : Char) : Bool := c == '/' || c == Char.ofNat 92

/-- A name that `filepath.Join(dir, name)` turns into a direct child of `dir`: not empty,
not one of the special names `.` and `..`, and free of path separators. -/
def isSingleComponent (name : String) : Prop :=
  name ≠ "" ∧ name ≠ "." ∧ name ≠ ".." ∧ ∀ c ∈ name.data, isPathSeparator c = false

/-! ## Recording writer (`canvasdiskwriter.go`) -/

/-- Type `image.Point`. -/
structure Point where
  X : Int
  Y : Int
  deriving DecidableEq, Repr

/-- Type `image.Rectangle`. -/
structure Rectangle where
  Min : Point
  Max : Point
  deriving DecidableEq, Repr

/-- A `color.Color`, given by the four `uint32` values its `RGBA()` method returns. -/
structure Color where
  r : Nat
  g : Nat
  b : Nat
  a : Nat
  deriving DecidableEq, Repr

/-- An `image.Image` as far as the writer looks at it: its `Bounds()` and what
`bmp.Encode(rawBuffer, img)` leaves in the buffer (`none` when it returns an error). -/
structure Image where
  Bounds : Rectangle
  bmp : Option (List Nat)
  deriving DecidableEq, Repr

/-- The `error` values the writer returns. -/
inductive Error where
  /-- Text "Listener is closed". -/
  | listenerClosed
  /-- Text "Can't write to file %v: %v". -/
  | cantWrite (file : String)
  /-- Text "Can't create image for %v: %v". -/
  | cantCreateImage (file : String)
  deriving DecidableEq, Repr

/-- The `gzip.Writer` seen from its input side: the uncompressed bytes it has accepted,
and the environment's verdict on the coming `Write` calls (`true`: the call returns an
error; calls beyond the end of the list succeed). -/
structure ZipWriter where
  written : List Nat
  faults : List Bool
  closed : Bool
  deriving DecidableEq, Repr

/-- Method `ZipWriter.Write(p)`: a failing call accepts nothing. -/
def ZipWriter.Write (z : ZipWriter) (p : List Nat) : ZipWriter × Bool :=
  if z.closed then (z, false)
  else match z.faults with
    | [] => ({ z with written := z.written ++ p }, true)
    | false :: fs => ({ z with written := z.written ++ p, faults := fs }, true)
    | true :: fs => ({ z with faults := fs }, false)

/-- Method `ZipWriter.Close()`: nothing is added to the uncompressed stream. -/
def ZipWriter.Close (z : ZipWriter) : ZipWriter := { z with closed := true }

/-- The next `Write` call succeeds. -/
def ZipWriter.nextWriteSucceeds (z : ZipWriter) : Prop :=
  z.closed = false ∧ z.faults.head? ≠ some true

/-- Every coming `Write` call succeeds. -/
def ZipWriter.allWritesSucceed (z : ZipWriter) : Prop :=
  z.closed = false ∧ ∀ f ∈ z.faults, f = false

/-- Modelled from the spec: the canvas' subscriber registration (`subscribeListener`,
`unsubscribeListener`, `registerRects`), whose code is not among the sources. Only what
it records about this one listener is kept. -/
structure canvas where
  subscribed : Bool
  rects : List Rectangle
  deriving DecidableEq, Repr

/-- Modelled from the spec: `unsubscribeListener` removes the listener. -/
def canvas.unsubscribeListener (can : canvas) : canvas := { can with subscribed := false }

/-- Modelled from the spec: `registerRects` stores the rectangles the listener is interested in. -/
def canvas.registerRects (can : canvas) (rects : List Rectangle) : canvas :=
  { can with rects := rects }

/-- The `*os.File` of the recording: its name and whether it has been closed. -/
structure File where
  name : String
  closed : Bool
  deriving DecidableEq, Repr

/-- Type `canvasDiskWriter` (the mutex is left out: calls are sequential here). -/
structure canvasDiskWriter where
  Closed : Bool
  Canvas : canvas
  File : File
  ZipWriter : ZipWriter
  deriving DecidableEq, Repr

/-- Function `binary.Write(cdw.ZipWriter, binary.LittleEndian, data)` where `bs` is the
encoding of `data`: one `Write` call; on failure the handlers wrap the error with the
file name. -/
def canvasDiskWriter.binaryWrite (cdw : canvasDiskWriter) (bs : List Nat) :
    canvasDiskWriter × Option Error :=
  match cdw.ZipWriter.Write bs with
  | (z, true) => ({ cdw with ZipWriter := z }, none)
  | (z, false) => ({ cdw with ZipWriter := z }, some (.cantWrite cdw.File.name))

/-- Method `setListeningRects`. -/
def canvasDiskWriter.setListeningRects (cdw : canvasDiskWriter) (rects : List Rectangle) :
    canvasDiskWriter × Option Error :=
  if cdw.Closed then (cdw, some .listenerClosed)
  else ({ cdw with Canvas := cdw.Canvas.registerRects rects }, none)

/-- Method `handleSetPixel`; the struct written is
`{DataType uint8; Time int64; X, Y int32; R, G, B uint8}`. -/
def canvasDiskWriter.handleSetPixel (cdw : canvasDiskWriter) (pos : Point) (color : Color)
    (_vcID : Int) (now : Int) : canvasDiskWriter × Option Error :=
  if cdw.Closed then (cdw, some .listenerClosed)
  else
    let r := color.r
    let g := color.g
    let b := color.b
    cdw.binaryWrite
      ([uint8 10] ++ LittleEndian.PutUint64 (uint64 now)
        ++ LittleEndian.PutUint32 (uint32 (int32 pos.X))
        ++ LittleEndian.PutUint32 (uint32 (int32 pos.Y))
        ++ [uint8 (r >>> 8), uint8 (g >>> 8), uint8 (b >>> 8)])

/-- Method `handleInvalidateRect`; the struct written is
`{DataType uint8; Time int64; MinX, MinY, MaxX, MaxY int32}`. -/
def canvasDiskWriter.handleInvalidateRect (cdw : canvasDiskWriter) (rect : Rectangle)
    (_vcIDs : List Int) (now : Int) : canvasDiskWriter × Option Error :=
  if cdw.Closed then (cdw, some .listenerClosed)
  else
    cdw.binaryWrite
      ([uint8 20] ++ LittleEndian.PutUint64 (uint64 now)
        ++ LittleEndian.PutUint32 (uint32 (int32 rect.Min.X))
        ++ LittleEndian.PutUint32 (uint32 (int32 rect.Min.Y))
        ++ LittleEndian.PutUint32 (uint32 (int32 rect.Max.X))
        ++ LittleEndian.PutUint32 (uint32 (int32 rect.Max.Y)))

/-- Method `handleInvalidateAll`; the struct written is `{DataType uint8; Time int64}`. -/
def canvasDiskWriter.handleInvalidateAll (cdw : canvasDiskWriter) (now : Int) :
    canvasDiskWriter × Option Error :=
  if cdw.Closed then (cdw, some .listenerClosed)
  else cdw.binaryWrite ([uint8 21] ++ LittleEndian.PutUint64 (uint64 now))

/-- Method `handleRevalidateRect`; same struct as `handleInvalidateRect`, `DataType` 22. -/
def canvasDiskWriter.handleRevalidateRect (cdw : canvasDiskWriter) (rect : Rectangle)
    (_vcIDs : List Int) (now : Int) : canvasDiskWriter × Option Error :=
  if cdw.Closed then (cdw, some .listenerClosed)
  else
    cdw.binaryWrite
      ([uint8 22] ++ LittleEndian.PutUint64 (uint64 now)
        ++ LittleEndian.PutUint32 (uint32 (int32 rect.Min.X))
        ++ LittleEndian.PutUint32 (uint32 (int32 rect.Min.Y))
        ++ LittleEndian.PutUint32 (uint32 (int32 rect.Max.X))
        ++ LittleEndian.PutUint32 (uint32 (int32 rect.Max.Y)))

/-- Method `handleSignalDownload`. -/
def canvasDiskWriter.handleSignalDownload (cdw : canvasDiskWriter) (_rect : Rectangle)
    (_vcIDs : List Int) : canvasDiskWriter × Option Error :=
  if cdw.Closed then (cdw, some .listenerClosed)
  else (cdw, none)

/-- Method `handleSetImage`; the struct written is
`{DataType uint8; Time int64; X, Y int32; Size uint32}`, followed in a second `Write`
by the encoded image. -/
def canvasDiskWriter.handleSetImage (cdw : canvasDiskWriter) (img : Image) (valid : Bool)
    (_vcIDs : List Int) (now : Int) : canvasDiskWriter × Option Error :=
  if cdw.Closed then (cdw, some .listenerClosed)
  else if !valid then (cdw, none)
  else match img.bmp with
    | none => (cdw, some (.cantCreateImage cdw.File.name))
    | some rawBuffer =>
      let bounds := img.Bounds
      match cdw.binaryWrite
          ([uint8 30] ++ LittleEndian.PutUint64 (uint64 now)
            ++ LittleEndian.PutUint32 (uint32 (int32 bounds.Min.X))
            ++ LittleEndian.PutUint32 (uint32 (int32 bounds.Min.Y))
            ++ LittleEndian.PutUint32 (uint32 rawBuffer.length)) with
      | (cdw1, some e) => (cdw1, some e)
      | (cdw1, none) => cdw1.binaryWrite rawBuffer

/-- Method `handleChunksChange`; the two maps are given as association lists. -/
def canvasDiskWriter.handleChunksChange (cdw : canvasDiskWriter)
    (_create _remove : List (Rectangle × Int)) : canvasDiskWriter × Option Error :=
  if cdw.Closed then (cdw, some .listenerClosed)
  else (cdw, none)

/-- Method `handleSetTime`. -/
def canvasDiskWriter.handleSetTime (cdw : canvasDiskWriter) (_t : Int) :
    canvasDiskWriter × Option Error :=
  if cdw.Closed then (cdw, some .listenerClosed)
  else (cdw, none)

/-- Method `Close`: unsubscribe, `handleInvalidateAll()` with its error dropped, set
`Closed`, close the compressor and the file. -/
def canvasDiskWriter.Close (cdw : canvasDiskWriter) (now : Int) : canvasDiskWriter :=
  let cdw1 := { cdw with Canvas := cdw.Canvas.unsubscribeListener }
  let cdw2 := (cdw1.handleInvalidateAll now).1
  let cdw3 := { cdw2 with Closed := true }
  let cdw4 := { cdw3 with ZipWriter := cdw3.ZipWriter.Close }
  { cdw4 with File := { cdw4.File with closed := true } }

/-- One entry of the Canvas Event Contract, as the canvas delivers it to a listener. -/
inductive Event where
  | SetPixel (pos : Point) (color : Color) (vcID : Int)
  | InvalidateRect (rect : Rectangle) (vcIDs : List Int)
  | InvalidateAll
  | RevalidateRect (rect : Rectangle) (vcIDs : List Int)
  | SignalDownload (rect : Rectangle) (vcIDs : List Int)
  | SetImage (img : Image) (valid : Bool) (vcIDs : List Int)
  | ChunksChange (create remove : List (Rectangle × Int))
  | SetTime (t : Int)
  deriving DecidableEq, Repr

/-- Modelled from the spec: the canvas' fan-out, whose code is not among the sources. It
calls the listener's handler for the event; `now` is the clock value at that moment. -/
def canvasDiskWriter.deliver (cdw : canvasDiskWriter) (e : Event) (now : Int) :
    canvasDiskWriter × Option Error :=
  match e with
  | .SetPixel pos color vcID => cdw.handleSetPixel pos color vcID now
  | .InvalidateRect rect vcIDs => cdw.handleInvalidateRect rect vcIDs now
  | .InvalidateAll => cdw.handleInvalidateAll now
  | .RevalidateRect rect vcIDs => cdw.handleRevalidateRect rect vcIDs now
  | .SignalDownload rect vcIDs => cdw.handleSignalDownload rect vcIDs
  | .SetImage img valid vcIDs => cdw.handleSetImage img valid vcIDs now
  | .ChunksChange create remove => cdw.handleChunksChange create remove
  | .SetTime t => cdw.handleSetTime t

/-- Modelled from the spec: sequential delivery of timestamped events, in order; the
errors returned by the handlers are logged and dropped by the caller. -/
def canvasDiskWriter.deliverAll (cdw : canvasDiskWriter) : List (Event × Int) → canvasDiskWriter
  | [] => cdw
  | (e, now) :: rest => canvasDiskWriter.deliverAll (cdw.deliver e now).1 rest

/-! ## Authentication handshake (`authenticateMe`) -/

/-- The anonymous struct the body is unmarshalled into; `W` stands for `float32`. -/
structure MeResponse (W : Type) where
  ID : String
  Name : String
  Center : List Int
  WaitSeconds : W

/-- The fields of `connectionPixelcanvasio` that `authenticateMe` reads or writes. -/
structure connectionPixelcanvasio where
  Fingerprint : String
  Center : Point
  AuthName : String
  AuthID : String
  NextPixel : Int
  deriving DecidableEq, Repr

/-- What `postJSON` returns: an error, or a status code together with the body. -/
inductive PostResult where
  | failed
  | response (statusCode : Int) (body : List Nat)
  deriving DecidableEq, Repr

/-- The `error` values of `authenticateMe`. -/
inductive AuthError where
  /-- The error of `postJSON`. -/
  | post
  /-- The error of `json.Unmarshal`. -/
  | unmarshal
  /-- Text "Authentication failed with wrong status code: %v (body: %v)". -/
  | wrongStatus (statusCode : Int) (body : List Nat)
  /-- Text "Invalid center given in authentication response". -/
  | invalidCenter
  deriving DecidableEq, Repr

/-- Method `authenticateMe`. The library calls are arguments: `post` is what `postJSON`
returned, `unmarshal` is `json.Unmarshal` into the response struct (`none`: an error),
`waitNanos w` is `time.Duration(w*1000) * time.Millisecond`, and `now` is `time.Now()`. -/
def connectionPixelcanvasio.authenticateMe {W : Type} (con : connectionPixelcanvasio)
    (post : PostResult) (unmarshal : List Nat → Option (MeResponse W)) (waitNanos : W → Int)
    (now : Int) : connectionPixelcanvasio × Option AuthError :=
  match post with
  | .failed => (con, some .post)
  | .response statusCode body =>
    match unmarshal body with
    | none => (con, some .unmarshal)
    | some response =>
      if statusCode ≠ 200 then (con, some (.wrongStatus statusCode body))
      else if response.Center.length < 2 then (con, some .invalidCenter)
      else
        ({ con with
            AuthID := response.ID
            AuthName := response.Name
            Center := { X := response.Center.getD 0 0, Y := response.Center.getD 1 0 }
            NextPixel := now + waitNanos response.WaitSeconds }, none)

/-! ## Vocabulary of the recording format -/

/-- The `n` low digits of `v` in base 256, least significant first: an `n`-byte
little-endian unsigned integer. -/
def littleEndian : Nat → Nat → List Nat
  | 0, _ => []
  | n + 1, v => v % 256 :: littleEndian n (v / 256)

/-- Two's complement of `v` on `bits` bits, for `-2^(bits-1) ≤ v < 2^(bits-1)`. -/
def twosComplement (bits : Nat) (v : Int) : Nat :=
  if 0 ≤ v then v.toNat else (v + 2 ^ bits).toNat

/-- A record of the recording format: tag byte, timestamp, payload bytes. -/
structure Record where
  tag : Nat
  time : Int
  payload : List Nat
  deriving DecidableEq, Repr

/-- A 4-byte little-endian field holding the low 32 bits of `v`. -/
def field32 (v : Int) : List Nat := littleEndian 4 (v % 4294967296).toNat

/-- The bytes of a record: `type:u8`, `timeNanos:i64` little-endian, payload. -/
def Record.bytes (r : Record) : List Nat :=
  r.tag :: (littleEndian 8 (r.time % 18446744073709551616).toNat ++ r.payload)

/-- The tag of the record that the spec's ordering property attributes to each event
kind: every SetPixel, InvalidateRect, InvalidateAll, RevalidateRect and SetImage event
has one, the other three kinds have none. -/
def claimedTag : Event → Option Nat
  | .SetPixel _ _ _ => some 10
  | .InvalidateRect _ _ => some 20
  | .InvalidateAll => some 21
  | .RevalidateRect _ _ => some 22
  | .SetImage _ _ _ => some 30
  | .SignalDownload _ _ => none
  | .ChunksChange _ _ => none
  | .SetTime _ => none

/-- The record an event delivered at clock value `now` stands for in the file: as
`claimedTag`, except that a SetImage event has one only when it is flagged valid and its
image could be encoded. -/
def persistedRecord (e : Event) (now : Int) : Option Record :=
  match e with
  | .SetPixel pos color _ =>
    some ⟨10, now, field32 pos.X ++ field32 pos.Y
      ++ [color.r / 256 % 256, color.g / 256 % 256, color.b / 256 % 256]⟩
  | .InvalidateRect rect _ =>
    some ⟨20, now, field32 rect.Min.X ++ field32 rect.Min.Y
      ++ field32 rect.Max.X ++ field32 rect.Max.Y⟩
  | .InvalidateAll => some ⟨21, now, []⟩
  | .RevalidateRect rect _ =>
    some ⟨22, now, field32 rect.Min.X ++ field32 rect.Min.Y
      ++ field32 rect.Max.X ++ field32 rect.Max.Y⟩
  | .SetImage img valid _ =>
    if valid then
      img.bmp.map fun raw =>
        ⟨30, now, field32 img.Bounds.Min.X ++ field32 img.Bounds.Min.Y
          ++ littleEndian 4 (raw.length % 4294967296) ++ raw⟩
    else none
  | .SignalDownload _ _ => none
  | .ChunksChange _ _ => none
  | .SetTime _ => none

/-- The records of a sequence of timestamped events, in delivery order. -/
def persistedRecords (evs : List (Event × Int)) : List Record :=
  evs.filterMap fun p => persistedRecord p.1 p.2

/-- An open writer on a fresh stream whose writes all succeed. -/
def freshWriter : canvasDiskWriter :=
  { Closed := false
    Canvas := { subscribed := true, rects := [] }
    File := { name := "recordings/pixelcanvas.io/2019-01-01T000000.pixrec", closed := false }
    ZipWriter := { written := [], faults := [], closed := false } }

/-- An open writer that has three bytes in its stream and whose next `Write` call
returns an error. -/
def failingWriter : canvasDiskWriter :=
  { Closed := false
    Canvas := { subscribed := true, rects := [] }
    File := { name := "recordings/pixelcanvas.io/2019-01-01T000000.pixrec", closed := false }
    ZipWriter := { written := [1, 2, 3], faults := [true], closed := false } }

/-- A 1x1 image at the origin together with some encoding of it. -/
def sampleImage : Image :=
  { Bounds := { Min := { X := 0, Y := 0 }, Max := { X := 1, Y := 1 } }
    bmp := some [66, 77] }

instance (z : ZipWriter) : Decidable z.nextWriteSucceeds := by
  unfold ZipWriter.nextWriteSucceeds; infer_instance

instance (z : ZipWriter) : Decidable z.allWritesSucceed := by
  unfold ZipWriter.allWritesSucceed; infer_instance

/-- The tags that the spec's ordering property attributes to a sequence of events. -/
def claimedTags (evs : List (Event × Int)) : List Nat :=
  evs.filterMap fun p => claimedTag p.1

/-- A response parser for examples: the body `[1]` parses to a complete response, the
body `[2]` to a response without center, and nothing else parses. -/
def sampleUnmarshal (body : List Nat) : Option (MeResponse Nat) :=
  if body = [1] then some { ID := "42", Name := "me", Center := [3, -4], WaitSeconds := 5 }
  else if body = [2] then some { ID := "42", Name := "me", Center := [], WaitSeconds := 5 }
  else none

/-- A connection that has not authenticated yet. -/
def freshConnection : connectionPixelcanvasio :=
  { Fingerprint := "11111111111111111111111111111111"
    Center := { X := 0, Y := 0 }
    AuthName := ""
    AuthID := ""
    NextPixel := 0 }

/-! ## Auxiliary facts -/

theorem uint8_of_lt {v : Nat} (h : v < 256) : uint8 v = v := Nat.mod_eq_of_lt h

theorem uint16_of_lt {v : Nat} (h : v < 65536) : uint16 v = v := Nat.mod_eq_of_lt h

theorem bigEndian_pair (hi lo : Nat) (rest : List Nat) (hhi : hi < 256) (hlo : lo < 256) :
    BigEndian.Uint16 (hi :: lo :: rest) = hi * 256 + lo := by
  have h1 : uint16 lo = lo := uint16_of_lt (by omega)
  have h2 : uint16 hi = hi := uint16_of_lt (by omega)
  have h3 : hi <<< 8 = 2 ^ 8 * hi := by rw [Nat.shiftLeft_eq, Nat.mul_comm]
  have h4 : uint16 (2 ^ 8 * hi) = 2 ^ 8 * hi := uint16_of_lt (by omega)
  have h5 : 2 ^ 8 * hi + lo = 2 ^ 8 * hi ||| lo :=
    Nat.mul_add_lt_is_or (by omega : lo < 2 ^ 8) hi
  simp only [BigEndian.Uint16, List.getD_cons_zero, List.getD_cons_succ, h1, h2, h3, h4]
  rw [Nat.lor_comm, ← h5]
  omega

theorem int16_eq (v : Nat) (h : v < 65536) :
    int16 v = if v < 32768 then (v : Int) else (v : Int) - 65536 := by
  simp only [int16, Nat.mod_eq_of_lt h]

theorem and_15 (v : Nat) : v &&& 0x0F = v % 16 := Nat.and_pow_two_sub_one_eq_mod v 4

theorem and_63 (v : Nat) : v &&& 0x3F = v % 64 := Nat.and_pow_two_sub_one_eq_mod v 6

theorem handleMessage_pixel (b1 b2 b3 b4 b5 b6 : Nat)
    (h1 : b1 < 256) (h2 : b2 < 256) (h3 : b3 < 256) (h4 : b4 < 256)
    (h5 : b5 < 256) (h6 : b6 < 256) :
    handleMessage [0xC1, b1, b2, b3, b4, b5, b6] =
      some (.pixelchange ((b5 * 256 + b6) &&& 0x0F) (int16 (b1 * 256 + b2))
        (int16 (b3 * 256 + b4)) (((b5 * 256 + b6) >>> 4) &&& 0x3F)
        (((b5 * 256 + b6) >>> 10) &&& 0x3F)) := by
  have e1 := bigEndian_pair b1 b2 [b3, b4, b5, b6] h1 h2
  have e2 := bigEndian_pair b3 b4 [b5, b6] h3 h4
  have e3 := bigEndian_pair b5 b6 [] h5 h6
  simp [handleMessage, e1, e2, e3]

/-- The frames the read loop does not recognise produce no pixel update. -/
theorem handleMessage_malformed (m : List Nat) (h : ¬ isPixelFrame m) :
    pixelUpdates (handleMessage m).toList = [] := by
  cases m with
  | nil => simp [handleMessage, pixelUpdates]
  | cons a t =>
    by_cases ho : a = 0xC1
    · by_cases h7 : (a :: t).length = 7
      · exact absurd ⟨h7, by simp [ho]⟩ h
      · have h6 : ¬ t.length = 6 := by simpa using h7
        simp [handleMessage, ho, h6, pixelUpdates]
    · simp [handleMessage, ho, pixelUpdates]

/-- A recognised frame produces the log entry "Pixelchange". -/
theorem handleMessage_wellFormed (v : List Nat) (h : isPixelFrame v) :
    ∃ c cx cy ox oy, handleMessage v = some (.pixelchange c cx cy ox oy) := by
  obtain ⟨h7, hh⟩ := h
  cases v with
  | nil => simp at h7
  | cons a t =>
    simp only [List.head?_cons, Option.some.injEq] at hh
    subst hh
    simp only [handleMessage, List.getD_cons_zero, h7]
    simp

theorem pixelUpdates_append (l1 l2 : List LogEntry) :
    pixelUpdates (l1 ++ l2) = pixelUpdates l1 ++ pixelUpdates l2 := by
  induction l1 with
  | nil => rfl
  | cons e l ih => cases e <;> simp [pixelUpdates, ih]

theorem readLoop_message (m : List Nat) (rest : List ReadResult) :
    readLoop (.message m :: rest) =
      { log := (handleMessage m).toList ++ (readLoop rest).log,
        reads := (readLoop rest).reads + 1, exited := (readLoop rest).exited } := rfl

theorem readLoop_malformed (ms : List (List Nat)) (hms : ∀ m ∈ ms, ¬ isPixelFrame m)
    (rest : List ReadResult) :
    pixelUpdates (readLoop (ms.map .message ++ rest)).log = pixelUpdates (readLoop rest).log
    ∧ (readLoop (ms.map .message ++ rest)).reads = ms.length + (readLoop rest).reads
    ∧ (readLoop (ms.map .message ++ rest)).exited = (readLoop rest).exited := by
  induction ms with
  | nil => simp
  | cons m ms ih =>
    have hm := handleMessage_malformed m (hms m (List.mem_cons_self _ _))
    obtain ⟨i1, i2, i3⟩ := ih (fun x hx => hms x (List.mem_cons_of_mem _ hx))
    refine ⟨?_, ?_, ?_⟩
    · rw [List.map_cons, List.cons_append, readLoop_message]
      simp only [pixelUpdates_append, hm, i1, List.nil_append]
    · rw [List.map_cons, List.cons_append, readLoop_message]
      simp only [i2, List.length_cons]
      omega
    · rw [List.map_cons, List.cons_append, readLoop_message]
      exact i3

/-! ## Live-session frame decoder -/

/-- C1: for every 7-byte frame `[0xC1, b1, b2, b3, b4, b5, b6]` the frame decoder yields
chunkX = the big-endian 16-bit value of `(b1, b2)` and chunkY = that of `(b3, b4)`, both
read as signed 16-bit numbers, and with `mixed = b5*256 + b6` it yields
colorIndex = `mixed & 0x0F` (the low 4 bits), offsetX = `(mixed >> 4) & 0x3F` (the next
6 bits) and offsetY = `(mixed >> 10) & 0x3F` (the top 6 bits); `mixed = 0x0005` gives
`(5, 0, 0)` and `mixed = 0x0415` gives `(5, 1, 1)`. -/
theorem C1_frame_decoder (b1 b2 b3 b4 b5 b6 : Nat)
    (h1 : b1 < 256) (h2 : b2 < 256) (h3 : b3 < 256) (h4 : b4 < 256)
    (h5 : b5 < 256) (h6 : b6 < 256) :
    handleMessage [0xC1, b1, b2, b3, b4, b5, b6] =
        some (.pixelchange ((b5 * 256 + b6) &&& 0x0F)
          (if b1 * 256 + b2 < 32768 then ((b1 * 256 + b2 : Nat) : Int)
            else ((b1 * 256 + b2 : Nat) : Int) - 65536)
          (if b3 * 256 + b4 < 32768 then ((b3 * 256 + b4 : Nat) : Int)
            else ((b3 * 256 + b4 : Nat) : Int) - 65536)
          (((b5 * 256 + b6) >>> 4) &&& 0x3F) (((b5 * 256 + b6) >>> 10) &&& 0x3F))
    ∧ (b5 * 256 + b6) &&& 0x0F = (b5 * 256 + b6) % 16
    ∧ ((b5 * 256 + b6) >>> 4) &&& 0x3F = (b5 * 256 + b6) / 16 % 64
    ∧ ((b5 * 256 + b6) >>> 10) &&& 0x3F = (b5 * 256 + b6) / 1024 % 64
    ∧ (∃ cx cy, handleMessage [0xC1, b1, b2, b3, b4, 0x00, 0x05]
          = some (.pixelchange 5 cx cy 0 0))
    ∧ (∃ cx cy, handleMessage [0xC1, b1, b2, b3, b4, 0x04, 0x15]
          = some (.pixelchange 5 cx cy 1 1)) := by
  refine ⟨?_, and_15 _, ?_, ?_, ?_, ?_⟩
  · rw [handleMessage_pixel b1 b2 b3 b4 b5 b6 h1 h2 h3 h4 h5 h6,
      int16_eq (b1 * 256 + b2) (by omega), int16_eq (b3 * 256 + b4) (by omega)]
  · rw [and_63, Nat.shiftRight_eq_div_pow]
  · rw [and_63, Nat.shiftRight_eq_div_pow]
  · exact ⟨_, _, handleMessage_pixel b1 b2 b3 b4 0 5 h1 h2 h3 h4 (by omega) (by omega)⟩
  · exact ⟨_, _, handleMessage_pixel b1 b2 b3 b4 4 21 h1 h2 h3 h4 (by omega) (by omega)⟩

/-- C1, at the frame `C1 FF FE 00 07 04 15`: chunk `(-2, 7)`, colour 5, offset `(1, 1)`. -/
theorem C1_frame_decoder_witness :
    handleMessage [0xC1, 0xFF, 0xFE, 0x00, 0x07, 0x04, 0x15]
      = some (.pixelchange 5 (-2) 7 1 1) :=
  (C1_frame_decoder 0xFF 0xFE 0x00 0x07 0x04 0x15 (by decide) (by decide) (by decide)
    (by decide) (by decide) (by decide)).1

/-- C8: a frame that is not a 7-byte frame with opcode `0xC1` (the empty frame, another
opcode, `0xC1` with another length) yields no pixel update and does not end the read
loop, which goes on reading whatever follows; and the pixel update decoded from a valid
frame `v` is `handleMessage v`, whatever malformed frames `ms` were received before it. -/
theorem C8_malformed_frames_tolerated (ms : List (List Nat))
    (hms : ∀ m ∈ ms, ¬ isPixelFrame m) (v : List Nat) (hv : isPixelFrame v)
    (rest : List ReadResult) :
    (∀ m ∈ ms, pixelUpdates (handleMessage m).toList = [])
    ∧ pixelUpdates (readLoop (ms.map .message)).log = []
    ∧ (readLoop (ms.map .message)).reads = ms.length
    ∧ (readLoop (ms.map .message)).exited = false
    ∧ (readLoop (ms.map .message ++ rest)).reads = ms.length + (readLoop rest).reads
    ∧ (readLoop (ms.map .message ++ rest)).exited = (readLoop rest).exited
    ∧ (∃ c cx cy ox oy, handleMessage v = some (.pixelchange c cx cy ox oy)
        ∧ pixelUpdates (readLoop (ms.map .message ++ .message v :: rest)).log
            = (c, cx, cy, ox, oy) :: pixelUpdates (readLoop rest).log) := by
  have h0 := readLoop_malformed ms hms []
  have h1 := readLoop_malformed ms hms rest
  have h2 := readLoop_malformed ms hms (.message v :: rest)
  simp only [List.append_nil] at h0
  refine ⟨fun m hm => handleMessage_malformed m (hms m hm), ?_, ?_, ?_, h1.2.1, h1.2.2, ?_⟩
  · rw [h0.1]; rfl
  · rw [h0.2.1]; rfl
  · rw [h0.2.2]; rfl
  · obtain ⟨c, cx, cy, ox, oy, hd⟩ := handleMessage_wellFormed v hv
    refine ⟨c, cx, cy, ox, oy, hd, ?_⟩
    rw [h2.1, readLoop_message, hd]
    rfl

/-- C8, at the frames `[]`, `00 01`, `C1 01 02` followed by the valid `C1 00 01 00 02 04 15`:
the loop has read all four, has not exited, and logged the one pixel update. -/
theorem C8_malformed_frames_tolerated_witness :
    (readLoop ([[], [0x00, 0x01], [0xC1, 0x01, 0x02]].map .message ++ [])).exited
        = (readLoop []).exited
    ∧ ∃ c cx cy ox oy,
        handleMessage [0xC1, 0x00, 0x01, 0x00, 0x02, 0x04, 0x15]
          = some (.pixelchange c cx cy ox oy)
        ∧ pixelUpdates (readLoop ([[], [0x00, 0x01], [0xC1, 0x01, 0x02]].map .message
              ++ .message [0xC1, 0x00, 0x01, 0x00, 0x02, 0x04, 0x15] :: [])).log
            = (c, cx, cy, ox, oy) :: pixelUpdates (readLoop []).log :=
  have h := C8_malformed_frames_tolerated [[], [0x00, 0x01], [0xC1, 0x01, 0x02]]
    (by decide) [0xC1, 0x00, 0x01, 0x00, 0x02, 0x04, 0x15] (by decide) []
  ⟨h.2.2.2.2.2.1, h.2.2.2.2.2.2⟩

/-! ## Label sanitizer -/

theorem inClass_underscore : inClass '_' = false := by decide

theorem replaceAllRuns_true (cs : List Char) :
    replaceAllRuns true cs = replaceAllRuns false (cs.dropWhile fun d => !inClass d) := by
  induction cs with
  | nil => rfl
  | cons d ds ih =>
    by_cases hd : inClass d = true
    · simp [replaceAllRuns, List.dropWhile_cons, hd]
    · simp [replaceAllRuns, List.dropWhile_cons, hd, ih]

theorem replaceAllRuns_filter (b : Bool) (cs : List Char) :
    (replaceAllRuns b cs).filter inClass = cs.filter inClass := by
  induction cs generalizing b with
  | nil => rfl
  | cons d ds ih =>
    by_cases hd : inClass d = true
    · simp [replaceAllRuns, hd, ih]
    · cases b <;> simp [replaceAllRuns, hd, ih, inClass_underscore]

theorem replaceAllRuns_mem (b : Bool) (cs : List Char) :
    ∀ c ∈ replaceAllRuns b cs, inClass c = true ∨ c = '_' := by
  induction cs generalizing b with
  | nil => intro c hc; simp [replaceAllRuns] at hc
  | cons d ds ih =>
    intro c hc
    by_cases hd : inClass d = true
    · simp only [replaceAllRuns, hd, if_true, List.mem_cons] at hc
      rcases hc with rfl | hc
      · exact Or.inl hd
      · exact ih false c hc
    · cases b
      · simp only [replaceAllRuns, hd, List.mem_cons] at hc
        simp only [Bool.false_eq_true, if_false, List.mem_cons] at hc
        rcases hc with rfl | hc
        · exact Or.inr rfl
        · exact ih true c hc
      · simp only [replaceAllRuns, hd, if_true] at hc
        simp only [Bool.false_eq_true, if_false] at hc
        exact ih true c hc

theorem replaceAllRuns_eq_nil (cs : List Char) : replaceAllRuns false cs = [] ↔ cs = [] := by
  cases cs with
  | nil => simp [replaceAllRuns]
  | cons d ds =>
    by_cases hd : inClass d = true <;> simp [replaceAllRuns, hd]

theorem replaceAllRuns_eq_dot (cs : List Char) :
    replaceAllRuns false cs = ['.'] ↔ cs = ['.'] := by
  constructor
  · intro h
    cases cs with
    | nil => simp [replaceAllRuns] at h
    | cons d ds =>
      by_cases hd : inClass d = true
      · simp only [replaceAllRuns, hd, if_true, List.cons.injEq] at h
        rw [h.1, (replaceAllRuns_eq_nil ds).1 h.2]
      · simp [replaceAllRuns, hd] at h
  · rintro rfl; decide

theorem replaceAllRuns_eq_dotdot (cs : List Char) :
    replaceAllRuns false cs = ['.', '.'] ↔ cs = ['.', '.'] := by
  constructor
  · intro h
    cases cs with
    | nil => simp [replaceAllRuns] at h
    | cons d ds =>
      by_cases hd : inClass d = true
      · simp only [replaceAllRuns, hd, if_true, List.cons.injEq] at h
        rw [h.1, (replaceAllRuns_eq_dot ds).1 (by rw [h.2])]
      · simp [replaceAllRuns, hd] at h
  · rintro rfl; decide

theorem replaceAllRuns_length (b : Bool) (cs : List Char) :
    (replaceAllRuns b cs).length ≤ cs.length := by
  induction cs generalizing b with
  | nil => simp [replaceAllRuns]
  | cons d ds ih =>
    have i1 := ih false
    have i2 := ih true
    by_cases hd : inClass d = true
    · simp only [replaceAllRuns, hd, if_true, List.length_cons]; omega
    · cases b
      · simp only [replaceAllRuns, hd, List.length_cons]
        simp only [Bool.false_eq_true, if_false, List.length_cons]; omega
      · simp only [replaceAllRuns, hd, if_true, List.length_cons]
        simp only [Bool.false_eq_true, if_false]; omega

theorem inClass_not_separator (c : Char) (h : inClass c = true ∨ c = '_') :
    isPathSeparator c = false := by
  rcases h with h | rfl
  · by_cases h1 : c = '/'
    · subst h1; exact absurd h (by decide)
    · by_cases h2 : c = Char.ofNat 92
      · subst h2; exact absurd h (by decide)
      · simp [isPathSeparator, h1, h2]
  · decide

/-- C2, as stated, fails: the two adjacent characters `!/` of `"My Canvas!/weird"` become
one `_`, so the result is not `"My_Canvas__weird"` and is shorter than the input. -/
theorem C2_counterexample :
    sanitize "My Canvas!/weird" ≠ "My_Canvas__weird"
    ∧ (sanitize "My Canvas!/weird").length ≠ "My Canvas!/weird".length := by
  decide

/-- C2 (amended): the label sanitizer replaces every maximal run of characters outside
`[A-Za-z0-9.-]` with one `_` and leaves all other characters in place: a label that
starts with a character of the class keeps it, a label that starts with a character
outside the class gets one `_` for the whole run of such characters, and the rest is
sanitized in the same way; the characters of the class are the same before and after,
and the result is never longer than the input; `"My Canvas!/weird"` is sanitized to
`"My_Canvas_weird"`. -/
theorem C2_sanitizer_replaces_runs (c : Char) (cs : List Char) :
    sanitize "" = ""
    ∧ sanitize ⟨c :: cs⟩ =
        (if inClass c then ⟨c :: (sanitize ⟨cs⟩).data⟩
         else ⟨'_' :: (sanitize ⟨cs.dropWhile fun d => !inClass d⟩).data⟩)
    ∧ (sanitize ⟨cs⟩).data.filter inClass = cs.filter inClass
    ∧ (sanitize ⟨cs⟩).length ≤ cs.length
    ∧ sanitize "My Canvas!/weird" = "My_Canvas_weird" := by
  refine ⟨by decide, ?_, replaceAllRuns_filter false cs, ?_, by decide⟩
  · by_cases hc : inClass c = true
    · simp [sanitize, replaceAllRuns, hc]
    · simp [sanitize, replaceAllRuns, hc, replaceAllRuns_true]
  · exact replaceAllRuns_length false cs

/-- C10, as stated, fails: the labels `".."`, `"."` and `""` are returned unchanged by
the sanitizer, and none of them is a single path component. -/
theorem C10_counterexample :
    sanitize ".." = ".." ∧ ¬ isSingleComponent (sanitize "..")
    ∧ sanitize "." = "." ∧ ¬ isSingleComponent (sanitize ".")
    ∧ sanitize "" = "" ∧ ¬ isSingleComponent (sanitize "") :=
  ⟨by decide, fun h => h.2.2.1 (by decide), by decide, fun h => h.2.1 (by decide),
    by decide, fun h => h.1 (by decide)⟩

/-- C10 (amended): for every label the sanitized label consists only of characters in
`[A-Za-z0-9.-]` and `_`, so it contains no path separator; it is empty, `.` or `..`
exactly when the label itself is; hence for every label other than `""`, `"."` and
`".."` it is a single, non-empty path component different from `.` and `..`, and the
directory `Join(wd, "recordings", sanitizedLabel)` is a direct child of the recordings
directory. -/
theorem C10_sanitized_label_component (label : String) :
    (∀ c ∈ (sanitize label).data, inClass c = true ∨ c = '_')
    ∧ (∀ c ∈ (sanitize label).data, isPathSeparator c = false)
    ∧ (sanitize label = "" ↔ label = "")
    ∧ (sanitize label = "." ↔ label = ".")
    ∧ (sanitize label = ".." ↔ label = "..")
    ∧ (label ≠ "" → label ≠ "." → label ≠ ".." → isSingleComponent (sanitize label)) := by
  have hmem := replaceAllRuns_mem false label.data
  have hsep : ∀ c ∈ (sanitize label).data, isPathSeparator c = false :=
    fun c hc => inClass_not_separator c (hmem c hc)
  have e0 : sanitize label = "" ↔ label = "" := by
    rw [String.ext_iff, String.ext_iff]
    exact replaceAllRuns_eq_nil label.data
  have e1 : sanitize label = "." ↔ label = "." := by
    rw [String.ext_iff, String.ext_iff]
    exact replaceAllRuns_eq_dot label.data
  have e2 : sanitize label = ".." ↔ label = ".." := by
    rw [String.ext_iff, String.ext_iff]
    exact replaceAllRuns_eq_dotdot label.data
  exact ⟨hmem, hsep, e0, e1, e2, fun h0 h1 h2 =>
    ⟨fun h => h0 (e0.1 h), fun h => h1 (e1.1 h), fun h => h2 (e2.1 h), hsep⟩⟩

/-- C10 (amended), at the label `"My Canvas!/weird"`. -/
theorem C10_sanitized_label_component_witness :
    isSingleComponent (sanitize "My Canvas!/weird") :=
  (C10_sanitized_label_component "My Canvas!/weird").2.2.2.2.2
    (by decide) (by decide) (by decide)

/-! ## Recording writer: encoding lemmas -/

theorem putUint32_eq (v : Nat) : LittleEndian.PutUint32 v = littleEndian 4 v := by
  simp [LittleEndian.PutUint32, littleEndian, uint8, Nat.shiftRight_eq_div_pow,
    Nat.div_div_eq_div_mul]

theorem putUint64_eq (v : Nat) : LittleEndian.PutUint64 v = littleEndian 8 v := by
  simp [LittleEndian.PutUint64, littleEndian, uint8, Nat.shiftRight_eq_div_pow,
    Nat.div_div_eq_div_mul]

theorem littleEndian_length (n v : Nat) : (littleEndian n v).length = n := by
  induction n generalizing v with
  | zero => rfl
  | succ n ih => simp [littleEndian, ih]

theorem uint32_int32 (x : Int) : uint32 (int32 x) = (x % 4294967296).toNat := by
  unfold uint32 int32
  split <;> congr 1 <;> omega

theorem putInt32_eq (x : Int) :
    LittleEndian.PutUint32 (uint32 (int32 x)) = field32 x := by
  rw [putUint32_eq, uint32_int32, field32]

theorem putInt64_eq (t : Int) :
    LittleEndian.PutUint64 (uint64 t)
      = littleEndian 8 (t % 18446744073709551616).toNat := by
  rw [putUint64_eq, uint64]

theorem field32_of_range (x : Int) (h : -2147483648 ≤ x ∧ x < 2147483648) :
    field32 x = littleEndian 4 (twosComplement 32 x) := by
  unfold field32 twosComplement
  congr 1
  split <;> congr 1 <;> omega

theorem time_of_range (t : Int)
    (h : -9223372036854775808 ≤ t ∧ t < 9223372036854775808) :
    (t % 18446744073709551616).toNat = twosComplement 64 t := by
  unfold twosComplement
  split <;> congr 1 <;> omega

theorem channel_byte (r : Nat) : uint8 (r >>> 8) = r / 256 % 256 := by
  simp [uint8, Nat.shiftRight_eq_div_pow]

/-! ## Recording writer: the stream -/

theorem write_next (z : ZipWriter) (p : List Nat) (h : z.nextWriteSucceeds) :
    z.Write p = ({ z with written := z.written ++ p, faults := z.faults.tail }, true) := by
  obtain ⟨hc, hf⟩ := h
  unfold ZipWriter.Write
  rw [hc]
  cases hz : z.faults with
  | nil => simp
  | cons b fs =>
    cases b
    · simp
    · rw [hz] at hf; simp at hf

theorem allWritesSucceed_next (z : ZipWriter) (h : z.allWritesSucceed) :
    z.nextWriteSucceeds := by
  obtain ⟨hc, hf⟩ := h
  refine ⟨hc, ?_⟩
  cases hz : z.faults with
  | nil => simp
  | cons b fs =>
    have := hf b (by rw [hz]; exact List.mem_cons_self _ _)
    simp [this]

theorem allWritesSucceed_tail (z : ZipWriter) (p : List Nat) (h : z.allWritesSucceed) :
    ZipWriter.allWritesSucceed
      { z with written := z.written ++ p, faults := z.faults.tail } := by
  obtain ⟨hc, hf⟩ := h
  exact ⟨hc, fun f hf2 => hf f (List.mem_of_mem_tail hf2)⟩

theorem binaryWrite_next (cdw : canvasDiskWriter) (bs : List Nat)
    (h : cdw.ZipWriter.nextWriteSucceeds) :
    cdw.binaryWrite bs =
      ({ cdw with ZipWriter :=
          { cdw.ZipWriter with written := cdw.ZipWriter.written ++ bs,
                               faults := cdw.ZipWriter.faults.tail } }, none) := by
  unfold canvasDiskWriter.binaryWrite
  rw [write_next cdw.ZipWriter bs h]

theorem binaryWrite_closed (cdw : canvasDiskWriter) (bs : List Nat) :
    (cdw.binaryWrite bs).1.Closed = cdw.Closed := by
  unfold canvasDiskWriter.binaryWrite
  split <;> rfl

/-! ## Recording writer: handlers -/

/-- The writer is open and every coming write succeeds. -/
theorem binaryWrite_all (cdw : canvasDiskWriter) (bs : List Nat)
    (hopen : cdw.Closed = false) (hw : cdw.ZipWriter.allWritesSucceed) :
    (cdw.binaryWrite bs).2 = none
    ∧ (cdw.binaryWrite bs).1.Closed = false
    ∧ (cdw.binaryWrite bs).1.ZipWriter.allWritesSucceed
    ∧ (cdw.binaryWrite bs).1.ZipWriter.written = cdw.ZipWriter.written ++ bs := by
  rw [binaryWrite_next cdw bs (allWritesSucceed_next _ hw)]
  exact ⟨rfl, hopen, allWritesSucceed_tail _ bs hw, rfl⟩

theorem setPixel_bytes (pos : Point) (color : Color) (now : Int) :
    [uint8 10] ++ LittleEndian.PutUint64 (uint64 now)
        ++ LittleEndian.PutUint32 (uint32 (int32 pos.X))
        ++ LittleEndian.PutUint32 (uint32 (int32 pos.Y))
        ++ [uint8 (color.r >>> 8), uint8 (color.g >>> 8), uint8 (color.b >>> 8)]
      = Record.bytes ⟨10, now, field32 pos.X ++ field32 pos.Y
          ++ [color.r / 256 % 256, color.g / 256 % 256, color.b / 256 % 256]⟩ := by
  rw [putInt32_eq, putInt32_eq, putInt64_eq, channel_byte, channel_byte, channel_byte]
  simp [Record.bytes, uint8]

theorem rect_bytes (tag : Nat) (htag : tag < 256) (rect : Rectangle) (now : Int) :
    [uint8 tag] ++ LittleEndian.PutUint64 (uint64 now)
        ++ LittleEndian.PutUint32 (uint32 (int32 rect.Min.X))
        ++ LittleEndian.PutUint32 (uint32 (int32 rect.Min.Y))
        ++ LittleEndian.PutUint32 (uint32 (int32 rect.Max.X))
        ++ LittleEndian.PutUint32 (uint32 (int32 rect.Max.Y))
      = Record.bytes ⟨tag, now, field32 rect.Min.X ++ field32 rect.Min.Y
          ++ field32 rect.Max.X ++ field32 rect.Max.Y⟩ := by
  rw [putInt32_eq, putInt32_eq, putInt32_eq, putInt32_eq, putInt64_eq, uint8_of_lt htag]
  simp [Record.bytes]

theorem invalidateAll_bytes (now : Int) :
    [uint8 21] ++ LittleEndian.PutUint64 (uint64 now) = Record.bytes ⟨21, now, []⟩ := by
  rw [putInt64_eq]
  simp [Record.bytes, uint8]

theorem image_bytes (img : Image) (raw : List Nat) (now : Int) :
    ([uint8 30] ++ LittleEndian.PutUint64 (uint64 now)
        ++ LittleEndian.PutUint32 (uint32 (int32 img.Bounds.Min.X))
        ++ LittleEndian.PutUint32 (uint32 (int32 img.Bounds.Min.Y))
        ++ LittleEndian.PutUint32 (uint32 raw.length)) ++ raw
      = Record.bytes ⟨30, now, field32 img.Bounds.Min.X ++ field32 img.Bounds.Min.Y
          ++ littleEndian 4 (raw.length % 4294967296) ++ raw⟩ := by
  have hlen : uint32 (raw.length : Int) = raw.length % 4294967296 := by
    unfold uint32; omega
  rw [putInt32_eq, putInt32_eq, putInt64_eq, hlen, putUint32_eq]
  simp [Record.bytes, uint8]

/-- The bytes of the record of an event, or none. -/
theorem deliver_step (cdw : canvasDiskWriter) (e : Event) (now : Int)
    (hopen : cdw.Closed = false) (hw : cdw.ZipWriter.allWritesSucceed) :
    (cdw.deliver e now).1.Closed = false
    ∧ (cdw.deliver e now).1.ZipWriter.allWritesSucceed
    ∧ (cdw.deliver e now).1.ZipWriter.written
        = cdw.ZipWriter.written
          ++ (((persistedRecord e now).toList).map Record.bytes).flatten := by
  cases e with
  | SetPixel pos color vcID =>
    simp only [canvasDiskWriter.deliver, canvasDiskWriter.handleSetPixel, hopen,
      Bool.false_eq_true, if_false, setPixel_bytes]
    obtain ⟨_, h2, h3, h4⟩ := binaryWrite_all cdw
      (Record.bytes ⟨10, now, field32 pos.X ++ field32 pos.Y
          ++ [color.r / 256 % 256, color.g / 256 % 256, color.b / 256 % 256]⟩) hopen hw
    exact ⟨h2, h3, by rw [h4]; simp [persistedRecord]⟩
  | InvalidateRect rect vcIDs =>
    simp only [canvasDiskWriter.deliver, canvasDiskWriter.handleInvalidateRect, hopen,
      Bool.false_eq_true, if_false, rect_bytes 20 (by decide)]
    obtain ⟨_, h2, h3, h4⟩ := binaryWrite_all cdw
      (Record.bytes ⟨20, now, field32 rect.Min.X ++ field32 rect.Min.Y
          ++ field32 rect.Max.X ++ field32 rect.Max.Y⟩) hopen hw
    exact ⟨h2, h3, by rw [h4]; simp [persistedRecord]⟩
  | InvalidateAll =>
    simp only [canvasDiskWriter.deliver, canvasDiskWriter.handleInvalidateAll, hopen,
      Bool.false_eq_true, if_false, invalidateAll_bytes]
    obtain ⟨_, h2, h3, h4⟩ := binaryWrite_all cdw (Record.bytes ⟨21, now, []⟩) hopen hw
    exact ⟨h2, h3, by rw [h4]; simp [persistedRecord]⟩
  | RevalidateRect rect vcIDs =>
    simp only [canvasDiskWriter.deliver, canvasDiskWriter.handleRevalidateRect, hopen,
      Bool.false_eq_true, if_false, rect_bytes 22 (by decide)]
    obtain ⟨_, h2, h3, h4⟩ := binaryWrite_all cdw
      (Record.bytes ⟨22, now, field32 rect.Min.X ++ field32 rect.Min.Y
          ++ field32 rect.Max.X ++ field32 rect.Max.Y⟩) hopen hw
    exact ⟨h2, h3, by rw [h4]; simp [persistedRecord]⟩
  | SignalDownload rect vcIDs =>
    simp [canvasDiskWriter.deliver, canvasDiskWriter.handleSignalDownload, hopen, hw,
      persistedRecord]
  | SetImage img valid vcIDs =>
    cases valid with
    | false =>
      simp [canvasDiskWriter.deliver, canvasDiskWriter.handleSetImage, hopen, hw,
        persistedRecord]
    | true =>
      cases hb : img.bmp with
      | none =>
        simp [canvasDiskWriter.deliver, canvasDiskWriter.handleSetImage, hopen, hw,
          persistedRecord, hb]
      | some raw =>
        obtain ⟨g1, g2, g3, g4⟩ := binaryWrite_all cdw
          ([uint8 30] ++ LittleEndian.PutUint64 (uint64 now)
            ++ LittleEndian.PutUint32 (uint32 (int32 img.Bounds.Min.X))
            ++ LittleEndian.PutUint32 (uint32 (int32 img.Bounds.Min.Y))
            ++ LittleEndian.PutUint32 (uint32 raw.length)) hopen hw
        have hres : cdw.handleSetImage img true vcIDs now
            = ((cdw.binaryWrite
                ([uint8 30] ++ LittleEndian.PutUint64 (uint64 now)
                  ++ LittleEndian.PutUint32 (uint32 (int32 img.Bounds.Min.X))
                  ++ LittleEndian.PutUint32 (uint32 (int32 img.Bounds.Min.Y))
                  ++ LittleEndian.PutUint32 (uint32 raw.length))).1).binaryWrite raw := by
          simp only [canvasDiskWriter.handleSetImage, hopen, hb]
          simp only [Bool.false_eq_true, if_false, Bool.not_true]
          split
          · rename_i c1 e he
            rw [he] at g1
            simp at g1
          · rename_i c1 he
            rw [he]
        obtain ⟨_, h2, h3, h4⟩ := binaryWrite_all _ raw g2 g3
        simp only [canvasDiskWriter.deliver, hres]
        refine ⟨h2, h3, ?_⟩
        rw [h4, g4, List.append_assoc, image_bytes]
        simp [persistedRecord, hb]
  | ChunksChange create remove =>
    simp [canvasDiskWriter.deliver, canvasDiskWriter.handleChunksChange, hopen, hw,
      persistedRecord]
  | SetTime t =>
    simp [canvasDiskWriter.deliver, canvasDiskWriter.handleSetTime, hopen, hw,
      persistedRecord]

theorem deliverAll_records (evs : List (Event × Int)) (cdw : canvasDiskWriter)
    (hopen : cdw.Closed = false) (hw : cdw.ZipWriter.allWritesSucceed) :
    (cdw.deliverAll evs).Closed = false
    ∧ (cdw.deliverAll evs).ZipWriter.allWritesSucceed
    ∧ (cdw.deliverAll evs).ZipWriter.written
        = cdw.ZipWriter.written ++ ((persistedRecords evs).map Record.bytes).flatten := by
  induction evs generalizing cdw with
  | nil => simp [canvasDiskWriter.deliverAll, persistedRecords, hopen, hw]
  | cons p rest ih =>
    obtain ⟨e, now⟩ := p
    obtain ⟨s1, s2, s3⟩ := deliver_step cdw e now hopen hw
    obtain ⟨i1, i2, i3⟩ := ih (cdw.deliver e now).1 s1 s2
    refine ⟨i1, i2, ?_⟩
    simp only [canvasDiskWriter.deliverAll]
    rw [i3, s3]
    cases hp : persistedRecord e now <;>
      simp [persistedRecords, List.filterMap_cons, hp]

theorem deliver_closed (cdw : canvasDiskWriter) (e : Event) (now : Int) :
    (cdw.deliver e now).1.Closed = cdw.Closed := by
  cases e with
  | SetPixel pos color vcID =>
    simp only [canvasDiskWriter.deliver, canvasDiskWriter.handleSetPixel]
    split
    · rfl
    · exact binaryWrite_closed _ _
  | InvalidateRect rect vcIDs =>
    simp only [canvasDiskWriter.deliver, canvasDiskWriter.handleInvalidateRect]
    split
    · rfl
    · exact binaryWrite_closed _ _
  | InvalidateAll =>
    simp only [canvasDiskWriter.deliver, canvasDiskWriter.handleInvalidateAll]
    split
    · rfl
    · exact binaryWrite_closed _ _
  | RevalidateRect rect vcIDs =>
    simp only [canvasDiskWriter.deliver, canvasDiskWriter.handleRevalidateRect]
    split
    · rfl
    · exact binaryWrite_closed _ _
  | SignalDownload rect vcIDs =>
    simp only [canvasDiskWriter.deliver, canvasDiskWriter.handleSignalDownload]
    split <;> rfl
  | SetImage img valid vcIDs =>
    simp only [canvasDiskWriter.deliver, canvasDiskWriter.handleSetImage]
    split
    · rfl
    · split
      · rfl
      · split
        · rfl
        · split
          · rename_i he
            have h := congrArg (fun q => q.1.Closed) he
            simp only [binaryWrite_closed] at h
            exact h.symm
          · rename_i he
            have h := congrArg (fun q => q.1.Closed) he
            simp only [binaryWrite_closed] at h
            rw [binaryWrite_closed]
            exact h.symm
  | ChunksChange create remove =>
    simp only [canvasDiskWriter.deliver, canvasDiskWriter.handleChunksChange]
    split <;> rfl
  | SetTime t =>
    simp only [canvasDiskWriter.deliver, canvasDiskWriter.handleSetTime]
    split <;> rfl

theorem deliverAll_closed (evs : List (Event × Int)) (cdw : canvasDiskWriter) :
    (cdw.deliverAll evs).Closed = cdw.Closed := by
  induction evs generalizing cdw with
  | nil => rfl
  | cons p rest ih =>
    obtain ⟨e, now⟩ := p
    simp only [canvasDiskWriter.deliverAll]
    rw [ih, deliver_closed]

theorem close_closed (cdw : canvasDiskWriter) (now : Int) : (cdw.Close now).Closed = true :=
  rfl

theorem deliverAll_of_closed (evs : List (Event × Int)) (cdw : canvasDiskWriter)
    (hc : cdw.Closed = true) : cdw.deliverAll evs = cdw := by
  induction evs with
  | nil => rfl
  | cons p rest ih =>
    obtain ⟨e, now⟩ := p
    have h : (cdw.deliver e now).1 = cdw := by
      cases e <;>
        simp [canvasDiskWriter.deliver, canvasDiskWriter.handleSetPixel,
          canvasDiskWriter.handleInvalidateRect, canvasDiskWriter.handleInvalidateAll,
          canvasDiskWriter.handleRevalidateRect, canvasDiskWriter.handleSignalDownload,
          canvasDiskWriter.handleSetImage, canvasDiskWriter.handleChunksChange,
          canvasDiskWriter.handleSetTime, hc]
    simp only [canvasDiskWriter.deliverAll, h, ih]

/-! ## Recording writer: the claims -/

/-- C3, as stated, fails: a SetImage event flagged as not valid, delivered to an open
writer whose writes all succeed, leaves the stream as it was, so the stream is not the
concatenation of one record per event of the kinds SetPixel, InvalidateRect,
InvalidateAll, RevalidateRect and SetImage. -/
theorem C3_counterexample :
    freshWriter.Closed = false ∧ freshWriter.ZipWriter.allWritesSucceed
    ∧ claimedTags [(.SetImage sampleImage false [], 0)] = [30]
    ∧ (freshWriter.deliverAll [(.SetImage sampleImage false [], 0)]).ZipWriter.written
        = freshWriter.ZipWriter.written
    ∧ ¬ ∃ recs : List Record,
        recs.map Record.tag = claimedTags [(.SetImage sampleImage false [], 0)]
        ∧ (freshWriter.deliverAll [(.SetImage sampleImage false [], 0)]).ZipWriter.written
            = freshWriter.ZipWriter.written ++ (recs.map Record.bytes).flatten := by
  refine ⟨rfl, by decide, by decide, by decide, ?_⟩
  rintro ⟨recs, h1, h2⟩
  have hw : (freshWriter.deliverAll [(.SetImage sampleImage false [], 0)]).ZipWriter.written
      = [] := by decide
  have hf : freshWriter.ZipWriter.written = [] := rfl
  rw [hw, hf] at h2
  cases recs with
  | nil => simp [claimedTags, claimedTag] at h1
  | cons r rs => simp [Record.bytes] at h2

/-- C3 (amended): for every sequence of events delivered in order to an open recording
writer whose writes all succeed, the bytes appended to the uncompressed stream are
exactly the concatenation, in delivery order, of one record per event of kind SetPixel
(tag 10), InvalidateRect (tag 20), InvalidateAll (tag 21), RevalidateRect (tag 22) and
per SetImage event that is flagged valid and whose image could be encoded (tag 30), each
carrying the clock value of its delivery; SetImage events flagged as not valid and events
of kind SignalDownload, ChunksChange and SetTime contribute no bytes. -/
theorem C3_records_in_delivery_order (cdw : canvasDiskWriter) (evs : List (Event × Int))
    (hopen : cdw.Closed = false) (hw : cdw.ZipWriter.allWritesSucceed) :
    (cdw.deliverAll evs).ZipWriter.written
        = cdw.ZipWriter.written ++ ((persistedRecords evs).map Record.bytes).flatten
    ∧ (∀ e now r, persistedRecord e now = some r → claimedTag e = some r.tag ∧ r.time = now)
    ∧ (∀ e now, persistedRecord e now = none ↔
        (claimedTag e = none
          ∨ ∃ img valid vcIDs, e = .SetImage img valid vcIDs
              ∧ (valid = false ∨ img.bmp = none))) := by
  refine ⟨(deliverAll_records evs cdw hopen hw).2.2, ?_, ?_⟩
  · intro e now r h
    cases e with
    | SetImage img valid vcIDs =>
      cases valid with
      | false => simp [persistedRecord] at h
      | true =>
        cases hb : img.bmp with
        | none => simp [persistedRecord, hb] at h
        | some raw =>
          simp only [persistedRecord, hb, if_true, Option.map_some', Option.some.injEq] at h
          subst h
          exact ⟨rfl, rfl⟩
    | _ =>
      simp only [persistedRecord, Option.some.injEq] at h
      first
        | (subst h; exact ⟨rfl, rfl⟩)
        | exact absurd h (by simp)
  · intro e now
    cases e with
    | SetImage img valid vcIDs =>
      cases valid with
      | false => simp [persistedRecord, claimedTag]
      | true =>
        cases hb : img.bmp with
        | none => simp [persistedRecord, claimedTag, hb]
        | some raw => simp [persistedRecord, claimedTag, hb]
    | _ => simp [persistedRecord, claimedTag]

/-- C3 (amended), at five events: a pixel, a time hint, an image that is not valid, a
valid image and an InvalidateAll. -/
theorem C3_records_in_delivery_order_witness :
    (freshWriter.deliverAll
        [(.SetPixel ⟨1, -2⟩ ⟨0xFFFF, 0x80FF, 0, 0xFFFF⟩ 0, 1), (.SetTime 5, 2),
         (.SetImage sampleImage false [], 3), (.SetImage sampleImage true [], 4),
         (.InvalidateAll, 5)]).ZipWriter.written
      = freshWriter.ZipWriter.written ++ ((persistedRecords
        [(.SetPixel ⟨1, -2⟩ ⟨0xFFFF, 0x80FF, 0, 0xFFFF⟩ 0, 1), (.SetTime 5, 2),
         (.SetImage sampleImage false [], 3), (.SetImage sampleImage true [], 4),
         (.InvalidateAll, 5)]).map Record.bytes).flatten :=
  (C3_records_in_delivery_order freshWriter _ rfl (by decide)).1

/-- C4: after `Close()` every handler call (`handleSetPixel`, `handleInvalidateRect`,
`handleInvalidateAll`, `handleRevalidateRect`, `handleSignalDownload`, `handleSetImage`,
`handleChunksChange`, `handleSetTime`) and `setListeningRects` returns the error
"Listener is closed" and leaves the writer, hence the output stream, as it was, for
every argument; so does the delivery of any sequence of events. -/
theorem C4_closed_writer_rejects (cdw : canvasDiskWriter) (closedAt : Int) :
    (∀ pos color vcID now, (cdw.Close closedAt).handleSetPixel pos color vcID now
        = (cdw.Close closedAt, some .listenerClosed))
    ∧ (∀ rect vcIDs now, (cdw.Close closedAt).handleInvalidateRect rect vcIDs now
        = (cdw.Close closedAt, some .listenerClosed))
    ∧ (∀ now, (cdw.Close closedAt).handleInvalidateAll now
        = (cdw.Close closedAt, some .listenerClosed))
    ∧ (∀ rect vcIDs now, (cdw.Close closedAt).handleRevalidateRect rect vcIDs now
        = (cdw.Close closedAt, some .listenerClosed))
    ∧ (∀ rect vcIDs, (cdw.Close closedAt).handleSignalDownload rect vcIDs
        = (cdw.Close closedAt, some .listenerClosed))
    ∧ (∀ img valid vcIDs now, (cdw.Close closedAt).handleSetImage img valid vcIDs now
        = (cdw.Close closedAt, some .listenerClosed))
    ∧ (∀ create remove, (cdw.Close closedAt).handleChunksChange create remove
        = (cdw.Close closedAt, some .listenerClosed))
    ∧ (∀ t, (cdw.Close closedAt).handleSetTime t
        = (cdw.Close closedAt, some .listenerClosed))
    ∧ (∀ rects, (cdw.Close closedAt).setListeningRects rects
        = (cdw.Close closedAt, some .listenerClosed))
    ∧ (∀ evs, ((cdw.Close closedAt).deliverAll evs).ZipWriter.written
        = (cdw.Close closedAt).ZipWriter.written) := by
  have hc := close_closed cdw closedAt
  refine ⟨?_, ?_, ?_, ?_, ?_, ?_, ?_, ?_, ?_, ?_⟩
  · intros; simp [canvasDiskWriter.handleSetPixel, hc]
  · intros; simp [canvasDiskWriter.handleInvalidateRect, hc]
  · intros; simp [canvasDiskWriter.handleInvalidateAll, hc]
  · intros; simp [canvasDiskWriter.handleRevalidateRect, hc]
  · intros; simp [canvasDiskWriter.handleSignalDownload, hc]
  · intros; simp [canvasDiskWriter.handleSetImage, hc]
  · intros; simp [canvasDiskWriter.handleChunksChange, hc]
  · intros; simp [canvasDiskWriter.handleSetTime, hc]
  · intros; simp [canvasDiskWriter.setListeningRects, hc]
  · intro evs
    rw [deliverAll_of_closed evs _ hc]

/-- C5, as stated, fails: on an open writer whose next write returns an error, `Close()`
drops the error of `handleInvalidateAll` and appends nothing, so the stream does not
end with an InvalidateAll record; the writer is closed all the same. -/
theorem C5_counterexample :
    failingWriter.Closed = false
    ∧ (failingWriter.handleInvalidateAll 258).2
        = some (.cantWrite failingWriter.File.name)
    ∧ ((failingWriter.deliverAll []).Close 258).ZipWriter.written
        = failingWriter.ZipWriter.written
    ∧ ((failingWriter.deliverAll []).Close 258).ZipWriter.written
        ≠ (failingWriter.deliverAll []).ZipWriter.written
            ++ (21 :: littleEndian 8 (twosComplement 64 258))
    ∧ ((failingWriter.deliverAll []).Close 258).Closed = true := by
  decide

/-- C5 (amended): for every open writer and every sequence of events delivered to it
before, one call of `Close()` whose write is accepted by the stream appends exactly one
InvalidateAll record, the tag byte 21 followed by the timestamp as 8 bytes little-endian
and no payload, as the last bytes of the stream, and leaves the writer closed. -/
theorem C5_close_appends_invalidateAll (cdw : canvasDiskWriter) (evs : List (Event × Int))
    (now : Int) (hopen : cdw.Closed = false)
    (hw : (cdw.deliverAll evs).ZipWriter.nextWriteSucceeds)
    (hnow : -9223372036854775808 ≤ now ∧ now < 9223372036854775808) :
    ((cdw.deliverAll evs).Close now).ZipWriter.written
        = (cdw.deliverAll evs).ZipWriter.written
            ++ (21 :: littleEndian 8 (twosComplement 64 now))
    ∧ (21 :: littleEndian 8 (twosComplement 64 now)) = Record.bytes ⟨21, now, []⟩
    ∧ (21 :: littleEndian 8 (twosComplement 64 now)).length = 9
    ∧ ((cdw.deliverAll evs).Close now).Closed = true
    ∧ ((cdw.deliverAll evs).Close now).ZipWriter.closed = true
    ∧ ((cdw.deliverAll evs).Close now).Canvas.subscribed = false := by
  have ho : (cdw.deliverAll evs).Closed = false := by rw [deliverAll_closed, hopen]
  have hrec : (21 :: littleEndian 8 (twosComplement 64 now)) = Record.bytes ⟨21, now, []⟩ := by
    simp [Record.bytes, time_of_range now hnow]
  have hcl : (cdw.deliverAll evs).Close now =
      { Closed := true
        Canvas := (cdw.deliverAll evs).Canvas.unsubscribeListener
        File := { (cdw.deliverAll evs).File with closed := true }
        ZipWriter :=
          { written := (cdw.deliverAll evs).ZipWriter.written ++ Record.bytes ⟨21, now, []⟩
            faults := (cdw.deliverAll evs).ZipWriter.faults.tail
            closed := true } } := by
    simp only [canvasDiskWriter.Close, canvasDiskWriter.handleInvalidateAll, ho,
      Bool.false_eq_true, if_false, invalidateAll_bytes, canvasDiskWriter.binaryWrite,
      write_next _ _ hw, ZipWriter.Close]
  refine ⟨?_, hrec, ?_, rfl, ?_, ?_⟩
  · rw [hcl, hrec]
  · simp [littleEndian_length]
  · rw [hcl]
  · rw [hcl]; rfl

/-- C5 (amended), at a fresh writer that has received one pixel and no InvalidateAll. -/
theorem C5_close_appends_invalidateAll_witness :
    ((freshWriter.deliverAll [(.SetPixel ⟨1, -2⟩ ⟨0xFFFF, 0x80FF, 0, 0xFFFF⟩ 0, 1)]).Close
        258).ZipWriter.written
      = (freshWriter.deliverAll
            [(.SetPixel ⟨1, -2⟩ ⟨0xFFFF, 0x80FF, 0, 0xFFFF⟩ 0, 1)]).ZipWriter.written
          ++ (21 :: littleEndian 8 (twosComplement 64 258)) :=
  (C5_close_appends_invalidateAll freshWriter
    [(.SetPixel ⟨1, -2⟩ ⟨0xFFFF, 0x80FF, 0, 0xFFFF⟩ 0, 1)] 258 rfl (by decide)
    (by decide)).1

/-- C6: on an open writer `handleSignalDownload`, `handleChunksChange` and
`handleSetTime` return success for every argument and leave the writer, with its output
stream and its closed flag, unchanged. -/
theorem C6_unpersisted_events_are_noops (cdw : canvasDiskWriter) (hopen : cdw.Closed = false)
    (rect : Rectangle) (vcIDs : List Int) (create remove : List (Rectangle × Int))
    (t : Int) :
    cdw.handleSignalDownload rect vcIDs = (cdw, none)
    ∧ cdw.handleChunksChange create remove = (cdw, none)
    ∧ cdw.handleSetTime t = (cdw, none)
    ∧ (cdw.handleSignalDownload rect vcIDs).1.ZipWriter.written = cdw.ZipWriter.written
    ∧ (cdw.handleChunksChange create remove).1.ZipWriter.written = cdw.ZipWriter.written
    ∧ (cdw.handleSetTime t).1.ZipWriter.written = cdw.ZipWriter.written
    ∧ (cdw.handleSignalDownload rect vcIDs).1.Closed = false
    ∧ (cdw.handleChunksChange create remove).1.Closed = false
    ∧ (cdw.handleSetTime t).1.Closed = false := by
  simp [canvasDiskWriter.handleSignalDownload, canvasDiskWriter.handleChunksChange,
    canvasDiskWriter.handleSetTime, hopen]

/-- C6, at a fresh writer. -/
theorem C6_unpersisted_events_are_noops_witness :
    freshWriter.handleSignalDownload ⟨⟨0, 0⟩, ⟨64, 64⟩⟩ [1] = (freshWriter, none)
    ∧ freshWriter.handleChunksChange [(⟨⟨0, 0⟩, ⟨64, 64⟩⟩, 1)] [] = (freshWriter, none)
    ∧ freshWriter.handleSetTime 1546300800000000000 = (freshWriter, none) :=
  have h := C6_unpersisted_events_are_noops freshWriter rfl ⟨⟨0, 0⟩, ⟨64, 64⟩⟩ [1]
    [(⟨⟨0, 0⟩, ⟨64, 64⟩⟩, 1)] [] 1546300800000000000
  ⟨h.1, h.2.1, h.2.2.1⟩

/-- C7, as stated, fails: on an open writer whose write returns an error,
`handleSetPixel` returns the error "Can't write to file" and appends no byte, for a
position in the 32-bit range and a colour with 16-bit channels. -/
theorem C7_counterexample :
    failingWriter.Closed = false
    ∧ (failingWriter.handleSetPixel ⟨1, -2⟩ ⟨0xFFFF, 0x80FF, 0, 0xFFFF⟩ 0 258).2
        = some (.cantWrite failingWriter.File.name)
    ∧ (failingWriter.handleSetPixel ⟨1, -2⟩ ⟨0xFFFF, 0x80FF, 0, 0xFFFF⟩ 0 258).1.ZipWriter.written
        = failingWriter.ZipWriter.written
    ∧ (failingWriter.handleSetPixel ⟨1, -2⟩ ⟨0xFFFF, 0x80FF, 0, 0xFFFF⟩ 0 258).1.ZipWriter.written
        ≠ failingWriter.ZipWriter.written
            ++ ([10] ++ littleEndian 8 (twosComplement 64 258)
                ++ littleEndian 4 (twosComplement 32 1)
                ++ littleEndian 4 (twosComplement 32 (-2))
                ++ [0xFFFF / 256, 0x80FF / 256, 0 / 256]) := by
  decide

/-- C7 (amended): for every position `(x, y)` with both coordinates in the signed 32-bit
range and every colour with 16-bit channels, `handleSetPixel` on an open writer whose
write is accepted by the stream returns success and appends exactly 20 bytes: the tag byte 10, the timestamp as
8 bytes little-endian, `x` and `y` as 4-byte little-endian two's-complement integers,
then the three bytes `r div 256`, `g div 256`, `b div 256`; alpha is not written. -/
theorem C7_setPixel_record (cdw : canvasDiskWriter) (pos : Point) (color : Color)
    (vcID now : Int) (hopen : cdw.Closed = false)
    (hw : cdw.ZipWriter.nextWriteSucceeds)
    (hx : -2147483648 ≤ pos.X ∧ pos.X < 2147483648)
    (hy : -2147483648 ≤ pos.Y ∧ pos.Y < 2147483648)
    (hr : color.r < 65536) (hg : color.g < 65536) (hb : color.b < 65536)
    (_ha : color.a < 65536)
    (hnow : -9223372036854775808 ≤ now ∧ now < 9223372036854775808) :
    (cdw.handleSetPixel pos color vcID now).2 = none
    ∧ (cdw.handleSetPixel pos color vcID now).1.ZipWriter.written
        = cdw.ZipWriter.written
            ++ ([10] ++ littleEndian 8 (twosComplement 64 now)
                ++ littleEndian 4 (twosComplement 32 pos.X)
                ++ littleEndian 4 (twosComplement 32 pos.Y)
                ++ [color.r / 256, color.g / 256, color.b / 256])
    ∧ ([10] ++ littleEndian 8 (twosComplement 64 now)
          ++ littleEndian 4 (twosComplement 32 pos.X)
          ++ littleEndian 4 (twosComplement 32 pos.Y)
          ++ [color.r / 256, color.g / 256, color.b / 256]).length = 20
    ∧ (∀ byte ∈ [color.r / 256, color.g / 256, color.b / 256], byte < 256) := by
  have hbytes := setPixel_bytes pos color now
  rw [show color.r / 256 % 256 = color.r / 256 from Nat.mod_eq_of_lt (by omega),
    show color.g / 256 % 256 = color.g / 256 from Nat.mod_eq_of_lt (by omega),
    show color.b / 256 % 256 = color.b / 256 from Nat.mod_eq_of_lt (by omega),
    field32_of_range pos.X hx, field32_of_range pos.Y hy] at hbytes
  simp only [Record.bytes, time_of_range now hnow] at hbytes
  simp only [canvasDiskWriter.handleSetPixel, hopen, Bool.false_eq_true, if_false, hbytes]
  rw [binaryWrite_next _ _ hw]
  refine ⟨rfl, ?_, ?_, ?_⟩
  · simp
  · simp [littleEndian_length]
  · intro byte hbyte
    simp only [List.mem_cons, List.mem_singleton, List.not_mem_nil, or_false] at hbyte
    rcases hbyte with rfl | rfl | rfl <;> omega

/-- C7 (amended), at the pixel `(1, -2)` with colour `(0xFFFF, 0x80FF, 0, 0xFFFF)` and clock 258:
the channel `0x80FF` is written as `0x80`. -/
theorem C7_setPixel_record_witness :
    (freshWriter.handleSetPixel ⟨1, -2⟩ ⟨0xFFFF, 0x80FF, 0, 0xFFFF⟩ 0 258).1.ZipWriter.written
      = [10, 2, 1, 0, 0, 0, 0, 0, 0, 1, 0, 0, 0, 0xFE, 0xFF, 0xFF, 0xFF, 0xFF, 0x80, 0] :=
  (C7_setPixel_record freshWriter ⟨1, -2⟩ ⟨0xFFFF, 0x80FF, 0, 0xFFFF⟩ 0 258 rfl (by decide)
    (by decide) (by decide) (by decide) (by decide) (by decide) (by decide)
    (by decide)).2.1

/-! ## Authentication handshake -/

/-- C9: given the status code and the body the authentication POST returned,
`authenticateMe` returns an error whenever the status code is not 200, the body cannot
be parsed, or the parsed center array has fewer than two elements, and then leaves the
connection (Center, AuthID, AuthName, NextPixel) unchanged; in every other case, that is
status 200 and a parsed body with at least two center elements, it returns success with
Center = (center[0], center[1]), AuthID = id and AuthName = name from the body. -/
theorem C9_authenticateMe {W : Type} (con : connectionPixelcanvasio) (statusCode : Int)
    (body : List Nat) (unmarshal : List Nat → Option (MeResponse W)) (waitNanos : W → Int)
    (now : Int) :
    ((statusCode ≠ 200 ∨ unmarshal body = none
        ∨ ∃ r, unmarshal body = some r ∧ r.Center.length < 2) →
      (con.authenticateMe (.response statusCode body) unmarshal waitNanos now).2 ≠ none
      ∧ (con.authenticateMe (.response statusCode body) unmarshal waitNanos now).1 = con)
    ∧ (∀ r, statusCode = 200 → unmarshal body = some r → 2 ≤ r.Center.length →
      (con.authenticateMe (.response statusCode body) unmarshal waitNanos now).2 = none
      ∧ r.Center[0]? = some
          (con.authenticateMe (.response statusCode body) unmarshal waitNanos now).1.Center.X
      ∧ r.Center[1]? = some
          (con.authenticateMe (.response statusCode body) unmarshal waitNanos now).1.Center.Y
      ∧ (con.authenticateMe (.response statusCode body) unmarshal waitNanos now).1.AuthID
          = r.ID
      ∧ (con.authenticateMe (.response statusCode body) unmarshal waitNanos now).1.AuthName
          = r.Name
      ∧ (con.authenticateMe (.response statusCode body) unmarshal waitNanos now).1.NextPixel
          = now + waitNanos r.WaitSeconds) := by
  constructor
  · intro h
    cases hu : unmarshal body with
    | none => simp [connectionPixelcanvasio.authenticateMe, hu]
    | some r =>
      by_cases hs : statusCode = 200
      · have hlen : r.Center.length < 2 := by
          rcases h with h | h | ⟨r2, h1, h2⟩
          · exact absurd hs h
          · rw [hu] at h; simp at h
          · rw [hu] at h1
            simp only [Option.some.injEq] at h1
            rw [h1]; exact h2
        simp [connectionPixelcanvasio.authenticateMe, hu, hs, hlen]
      · simp [connectionPixelcanvasio.authenticateMe, hu, hs]
  · intro r hs hu hlen
    have hlen2 : ¬ r.Center.length < 2 := by omega
    match hc : r.Center, hlen with
    | a :: b :: rest, _ =>
      have hn : ¬ rest.length + 1 + 1 < 2 := by omega
      simp [connectionPixelcanvasio.authenticateMe, hu, hs, hc, hn]

/-- C9, at status 200 with a body that parses to center `[3, -4]`, id `"42"`, name `"me"`. -/
theorem C9_authenticateMe_witness :
    (freshConnection.authenticateMe (.response 200 [1]) sampleUnmarshal (fun w => w * 1000000000)
        7).1
      = { freshConnection with
            Center := ⟨3, -4⟩, AuthID := "42", AuthName := "me", NextPixel := 5000000007 }
    ∧ (freshConnection.authenticateMe (.response 500 [1]) sampleUnmarshal
          (fun w => w * 1000000000) 7).1 = freshConnection
    ∧ (freshConnection.authenticateMe (.response 200 [2]) sampleUnmarshal
          (fun w => w * 1000000000) 7).1 = freshConnection :=
  have h1 := (C9_authenticateMe freshConnection 200 [1] sampleUnmarshal
    (fun w => w * 1000000000) 7).2
      { ID := "42", Name := "me", Center := [3, -4], WaitSeconds := 5 } rfl rfl (by decide)
  have h2 := (C9_authenticateMe freshConnection 500 [1] sampleUnmarshal
    (fun w => w * 1000000000) 7).1 (Or.inl (by decide))
  have h3 := (C9_authenticateMe freshConnection 200 [2] sampleUnmarshal
    (fun w => w * 1000000000) 7).1
      (Or.inr (Or.inr ⟨{ ID := "42", Name := "me", Center := [], WaitSeconds := 5 }, rfl,
        by decide⟩))
  ⟨by decide, h2.2, h3.2⟩

end D3pixelbot
